import Mathlib

/-
Verification of the authentication and session-authorization core of the
LandingPage repository.  The operations below are shallow embeddings of the
server module embedded in src/PRODUCTION_SECURITY.md (the production
authentication system: the functions from initializeUsers through
requireAdmin), and of the hash function in src/lib/auth.ts.  The external
key-value collaborator (kv_store) is modelled as association lists; the
source stores every record in one shared table under the key patterns
user:<username>, session:<token>, ratelimit:login:<username> and statistics,
which are pairwise disjoint key families, so each family is modelled as its
own association list keyed by the variable part of the key.
-/

namespace LandingPage

/-- Roles of a user record, the enum admin | user of the source. -/
inductive Role
  | admin
  | user
deriving DecidableEq

/-- Modelled from the spec: the digest produced by the external bcrypt
primitive (imported by the server module from deno.land; its code is not part
of the repository).  The spec describes it as a one-way salted hash whose
verification succeeds exactly for the hashed password, with a per-call salt;
the model keeps the password together with the salt supplied for the call. -/
structure Digest where
  pw : String
  salt : Nat
deriving DecidableEq

/-- Modelled from the spec: bcrypt.hash, with the per-call salt passed
explicitly as a parameter. -/
def bcryptHash (password : String) (salt : Nat) : Digest :=
  ⟨password, salt⟩

/-- Modelled from the spec: bcrypt.compare, true exactly when the supplied
password is the one that was hashed. -/
def bcryptCompare (password : String) (d : Digest) : Bool :=
  password == d.pw

/-- One key family of the key-value collaborator: an association list. -/
abbrev KV (α : Type) : Type := List (String × α)

/-- kv.get on one key family: the first binding of the key, if any. -/
def kvGet {α : Type} (k : String) : KV α → Option α
  | [] => none
  | (k2, v) :: rest => if k2 == k then some v else kvGet k rest

/-- kv.set: upsert, replacing the binding in place when the key is bound and
appending a fresh binding otherwise. -/
def kvSet {α : Type} (k : String) (v : α) : KV α → KV α
  | [] => [(k, v)]
  | (k2, w) :: rest =>
      if k2 == k then (k, v) :: rest else (k2, w) :: kvSet k v rest

/-- kv.del: remove every binding of the key. -/
def kvDel {α : Type} (k : String) : KV α → KV α
  | [] => []
  | (k2, v) :: rest =>
      if k2 == k then kvDel k rest else (k2, v) :: kvDel k rest

/-- The keys of a key family. -/
def kvKeys {α : Type} : KV α → List String
  | [] => []
  | (k, _) :: rest => k :: kvKeys rest

/-- Well-formedness of a key family: keys are pairwise distinct, as they are
in the real key-value store. -/
def kvWf {α : Type} (l : KV α) : Prop :=
  (kvKeys l).Nodup

/-- A stored user record (interface User of the server module). -/
structure UserRec where
  username : String
  passwordHash : Digest
  role : Role
  createdAt : Nat
deriving DecidableEq

/-- A stored session record (interface Session of the server module). -/
structure SessionRec where
  token : String
  username : String
  role : Role
  createdAt : Nat
  expiresAt : Nat
deriving DecidableEq

/-- The aggregate stored under the statistics key. -/
structure Stats where
  totalLogins : Nat
  lastLogin : Option Nat
  profileViews : Nat
deriving DecidableEq

/-- The projection of a user record returned by getAllUsers (digest never
included). -/
structure UserView where
  username : String
  role : Role
  createdAt : Nat
deriving DecidableEq

/-- The whole persisted state: the four disjoint key families of the
key-value collaborator. -/
structure Store where
  users : KV UserRec
  sessions : KV SessionRec
  ratelimits : KV Nat
  stats : Option Stats
deriving DecidableEq

/-- The store before any write. -/
def emptyStore : Store :=
  ⟨[], [], [], none⟩

/-- Result of createUser, updateUserPassword and deleteUser:
success true, or success false with the error string of the source. -/
inductive OpResult
  | ok
  | err (msg : String)
deriving DecidableEq

/-- Result of login.  ok carries the issued token and the role; err carries
the error string of the source; exn models the exception that propagates out
of login when the write of the statistics record fails (the source has no
try/catch inside login, so the surrounding HTTP route reports a server
error and the token is not returned). -/
inductive LoginResult
  | ok (token : String) (role : Role)
  | err (msg : String)
  | exn
deriving DecidableEq

/-- Result of validateSession. -/
inductive ValidateResult
  | invalid
  | valid (username : String) (role : Role)
deriving DecidableEq

/-- Result of requireAdmin. -/
inductive AdminCheck
  | authorized (username : String)
  | denied (msg : String)
deriving DecidableEq

/-- getUser: single-key lookup of a user record. -/
def getUser (username : String) (s : Store) : Option UserRec :=
  kvGet username s.users

/-- getAllUsers: every user record, digest dropped. -/
def getAllUsers (s : Store) : List UserView :=
  s.users.map (fun p => ⟨p.2.username, p.2.role, p.2.createdAt⟩)

/-- The number of admin-role users, computed exactly as deleteUser does:
getAllUsers filtered on the admin role. -/
def adminCount (s : Store) : Nat :=
  ((getAllUsers s).filter (fun u => u.role == Role.admin)).length

/-- createUser of the server module.  The source checks existence first,
then the username length, then the password length, then hashes and stores.
The call-time parameters salt (for the bcrypt call) and now (the clock read
for createdAt) are explicit. -/
def createUser (username password : String) (role : Role) (salt now : Nat)
    (s : Store) : Store × OpResult :=
  match kvGet username s.users with
  | some _ => (s, .err "User already exists")
  | none =>
    if username.length < 3 || username.length > 20 then
      (s, .err "Username must be between 3 and 20 characters")
    else if password.length < 4 then
      (s, .err "Password must be at least 4 characters")
    else
      let rec0 : UserRec := ⟨username, bcryptHash password salt, role, now⟩
      ({ s with users := kvSet username rec0 s.users }, .ok)

/-- updateUserPassword of the server module: lookup, length check, then
re-hash and store the record with only the digest replaced. -/
def updateUserPassword (username newPassword : String) (salt : Nat)
    (s : Store) : Store × OpResult :=
  match kvGet username s.users with
  | none => (s, .err "User not found")
  | some u =>
    if newPassword.length < 4 then
      (s, .err "Password must be at least 4 characters")
    else
      let u2 : UserRec := { u with passwordHash := bcryptHash newPassword salt }
      ({ s with users := kvSet username u2 s.users }, .ok)

/-- deleteUser of the server module: lookup, last-admin guard, delete. -/
def deleteUser (username : String) (s : Store) : Store × OpResult :=
  match kvGet username s.users with
  | none => (s, .err "User not found")
  | some u =>
    let admins := (getAllUsers s).filter (fun v => v.role == Role.admin)
    if u.role == Role.admin && admins.length == 1 then
      (s, .err "Cannot delete the last admin user")
    else
      ({ s with users := kvDel username s.users }, .ok)

/-- The lockout test of login: the source reads the counter once and checks
attempts && attempts >= 5, where a missing counter is null (falsy) and a
zero counter is falsy. -/
def rlLocked (attempts : Option Nat) : Bool :=
  match attempts with
  | none => false
  | some n => (!(n == 0)) && decide (5 ≤ n)

/-- login of the server module.  Call-time parameters: now is the clock read,
tok the token produced by generateToken (a 64-character random hex string),
and statsOk is false exactly when the write of the statistics record fails,
in which case the exception propagates (modelled as the exn result) with the
session already stored and the counter already cleared. -/
def login (username password : String) (now : Nat) (tok : String)
    (statsOk : Bool) (s : Store) : Store × LoginResult :=
  let attempts := kvGet username s.ratelimits
  if rlLocked attempts then
    (s, .err "Too many login attempts. Please try again in 15 minutes.")
  else
    match kvGet username s.users with
    | none =>
      ({ s with ratelimits := kvSet username (attempts.getD 0 + 1) s.ratelimits },
        .err "Invalid credentials")
    | some u =>
      if bcryptCompare password u.passwordHash then
        let s1 : Store := { s with ratelimits := kvDel username s.ratelimits }
        let sess : SessionRec := ⟨tok, u.username, u.role, now, now + 604800000⟩
        let s2 : Store := { s1 with sessions := kvSet tok sess s1.sessions }
        if statsOk then
          let st := s2.stats.getD ⟨0, none, 0⟩
          let st2 : Stats := { st with totalLogins := st.totalLogins + 1, lastLogin := some now }
          ({ s2 with stats := some st2 }, .ok tok u.role)
        else
          (s2, .exn)
      else
        ({ s with ratelimits := kvSet username (attempts.getD 0 + 1) s.ratelimits },
          .err "Invalid credentials")

/-- validateSession of the server module: empty token is falsy and rejected
at once; a missing record is invalid; an expired record (strictly past
expiry) is deleted and reported invalid; otherwise the stored username and
role are returned. -/
def validateSession (tok : String) (now : Nat) (s : Store) :
    Store × ValidateResult :=
  if tok == "" then
    (s, .invalid)
  else
    match kvGet tok s.sessions with
    | none => (s, .invalid)
    | some sess =>
      if sess.expiresAt < now then
        ({ s with sessions := kvDel tok s.sessions }, .invalid)
      else
        (s, .valid sess.username sess.role)

/-- logout of the server module: one unconditional delete of the session
key; the source has no failure path of its own. -/
def logout (tok : String) (s : Store) : Store :=
  { s with sessions := kvDel tok s.sessions }

/-- requireAdmin of the server module: validateSession, then the role
check.  Whatever validateSession did to the store (the lazy deletion of an
expired record) has already happened. -/
def requireAdmin (tok : String) (now : Nat) (s : Store) : Store × AdminCheck :=
  match validateSession tok now s with
  | (s1, .invalid) => (s1, .denied "Invalid or expired session")
  | (s1, .valid username role) =>
    if role == Role.admin then (s1, .authorized username)
    else (s1, .denied "Admin access required")

/-- initializeUsers of the server module: when no user record exists, seed
the default admin vossi and the default user hannes.  The two bcrypt salts
and the two clock reads are explicit parameters. -/
def initUsers (saltA saltB nowA nowB : Nat) (s : Store) : Store :=
  if s.users.length == 0 then
    let vossiRec : UserRec := ⟨"vossi", bcryptHash "password" saltA, Role.admin, nowA⟩
    let hannesRec : UserRec := ⟨"hannes", bcryptHash "1511" saltB, Role.user, nowB⟩
    { s with users := kvSet "hannes" hannesRec (kvSet "vossi" vossiRec s.users) }
  else s

/-- The initialized store: initializeUsers run on the empty store. -/
def initStore (saltA saltB nowA nowB : Nat) : Store :=
  initUsers saltA saltB nowA nowB emptyStore

/-- One request against the core, with all call-time inputs (clock reads,
fresh tokens, bcrypt salts, statistics-write outcome) made explicit. -/
inductive Op
  | createU (username password : String) (role : Role) (salt now : Nat)
  | updatePw (username newPassword : String) (salt : Nat)
  | deleteU (username : String)
  | loginOp (username password : String) (now : Nat) (tok : String) (statsOk : Bool)
  | logoutOp (tok : String)
  | validateOp (tok : String) (now : Nat)
  | requireAdminOp (tok : String) (now : Nat)
  | initOp (saltA saltB nowA nowB : Nat)

/-- The store left behind by one request. -/
def applyOp (s : Store) : Op → Store
  | .createU u p r salt now => (createUser u p r salt now s).1
  | .updatePw u p salt => (updateUserPassword u p salt s).1
  | .deleteU u => (deleteUser u s).1
  | .loginOp u p now tok statsOk => (login u p now tok statsOk s).1
  | .logoutOp tok => logout tok s
  | .validateOp tok now => (validateSession tok now s).1
  | .requireAdminOp tok now => (requireAdmin tok now s).1
  | .initOp a b na nb => initUsers a b na nb s

/-- The store after a sequence of requests. -/
def runOps (s : Store) (ops : List Op) : Store :=
  ops.foldl applyOp s

/-- The fixed salt of the hash function in src/lib/auth.ts. -/
def clientSalt : String := "vossi-salt-2024"

/-- hashPassword of src/lib/auth.ts: the SHA-256 platform primitive (not
code of the repository) applied to the password with the fixed salt
appended, hex-encoded.  The primitive, a fixed deterministic function, is
passed as the parameter sha; the function itself takes only the password,
so the digest depends on nothing but the password. -/
def hashPassword (sha : String → String) (password : String) : String :=
  sha (password ++ clientSalt)

/-- The digest comparison that validateCredentials in src/lib/auth.ts
performs: hash the supplied password and compare the digest strings. -/
def verifyPassword (sha : String → String) (password digest : String) : Bool :=
  hashPassword sha password == digest

/-- Recursive form of the admin-role count of a user family, used to reason
about adminCount by induction. -/
def adminsIn : KV UserRec → Nat
  | [] => 0
  | (_, u) :: rest => (if u.role == Role.admin then 1 else 0) + adminsIn rest

/-- A store holding one session record that expired at time 10. -/
def expiredStore : Store :=
  ⟨[], [("t", ⟨"t", "vossi", Role.admin, 0, 10⟩)], [], none⟩

/-- The initialized store with the rate-limit counter of vossi already at
the lockout threshold. -/
def lockedStore : Store :=
  { initStore 0 1 2 3 with ratelimits := [("vossi", 5)] }

/-- A store holding one session record that expires at time 1000. -/
def liveSessionStore : Store :=
  ⟨[], [("t", ⟨"t", "hannes", Role.user, 0, 1000⟩)], [], none⟩

section KvLemmas

variable {α : Type}

theorem kvGet_set_self (k : String) (v : α) (l : KV α) :
    kvGet k (kvSet k v l) = some v := by
  induction l with
  | nil => simp [kvSet, kvGet]
  | cons p rest ih =>
    obtain ⟨k2, w⟩ := p
    by_cases h : k2 = k
    · simp [kvSet, kvGet, h]
    · simp [kvSet, kvGet, h, ih]

theorem kvGet_set_ne (k k2 : String) (v : α) (l : KV α) (h : k2 ≠ k) :
    kvGet k2 (kvSet k v l) = kvGet k2 l := by
  induction l with
  | nil => simp [kvSet, kvGet, Ne.symm h]
  | cons p rest ih =>
    obtain ⟨k3, w⟩ := p
    by_cases h3 : k3 = k
    · subst h3
      simp [kvSet, kvGet, Ne.symm h]
    · simp [kvSet, kvGet, h3, ih]

theorem kvGet_del_self (k : String) (l : KV α) :
    kvGet k (kvDel k l) = none := by
  induction l with
  | nil => simp [kvDel, kvGet]
  | cons p rest ih =>
    obtain ⟨k2, w⟩ := p
    by_cases h : k2 = k
    · simp [kvDel, kvGet, h, ih]
    · simp [kvDel, kvGet, h, ih]

theorem kvGet_del_ne (k k2 : String) (l : KV α) (h : k2 ≠ k) :
    kvGet k2 (kvDel k l) = kvGet k2 l := by
  induction l with
  | nil => simp [kvDel, kvGet]
  | cons p rest ih =>
    obtain ⟨k3, w⟩ := p
    by_cases h3 : k3 = k
    · subst h3
      simp [kvDel, kvGet, Ne.symm h, ih]
    · simp [kvDel, kvGet, h3, ih]

theorem kvDel_idem (k : String) (l : KV α) :
    kvDel k (kvDel k l) = kvDel k l := by
  induction l with
  | nil => simp [kvDel]
  | cons p rest ih =>
    obtain ⟨k2, w⟩ := p
    by_cases h : k2 = k
    · simp [kvDel, h, ih]
    · simp [kvDel, h, ih]

theorem mem_kvKeys_set (x k : String) (v : α) (l : KV α)
    (h : x ∈ kvKeys (kvSet k v l)) : x = k ∨ x ∈ kvKeys l := by
  induction l with
  | nil =>
    simp [kvSet, kvKeys] at h
    exact Or.inl h
  | cons p rest ih =>
    obtain ⟨k2, w⟩ := p
    by_cases h2 : k2 = k
    · subst h2
      simp [kvSet, kvKeys] at h ⊢
      tauto
    · simp [kvSet, kvKeys, h2] at h ⊢
      rcases h with h | h
      · tauto
      · rcases ih h with h3 | h3 <;> tauto

theorem mem_kvKeys_del (x k : String) (l : KV α)
    (h : x ∈ kvKeys (kvDel k l)) : x ∈ kvKeys l := by
  induction l with
  | nil => simp [kvDel, kvKeys] at h
  | cons p rest ih =>
    obtain ⟨k2, w⟩ := p
    by_cases h2 : k2 = k
    · simp [kvDel, h2, kvKeys] at h ⊢
      exact Or.inr (ih h)
    · simp [kvDel, h2, kvKeys] at h ⊢
      rcases h with h | h
      · tauto
      · exact Or.inr (ih h)

theorem kvWf_set (k : String) (v : α) (l : KV α) (h : kvWf l) :
    kvWf (kvSet k v l) := by
  induction l with
  | nil => simp [kvSet, kvWf, kvKeys]
  | cons p rest ih =>
    obtain ⟨k2, w⟩ := p
    simp only [kvWf, kvKeys, List.nodup_cons] at h
    by_cases h2 : k2 = k
    · subst h2
      simp only [kvSet, beq_self_eq_true, if_true, kvWf, kvKeys, List.nodup_cons]
      exact h
    · have hrest : kvWf (kvSet k v rest) := ih h.2
      have hb : (k2 == k) = false := by simp [h2]
      simp only [kvSet, hb, Bool.false_eq_true, if_false, kvWf, kvKeys, List.nodup_cons]
      refine ⟨fun hmem => ?_, hrest⟩
      rcases mem_kvKeys_set k2 k v rest hmem with h3 | h3
      · exact h2 h3
      · exact h.1 h3

theorem kvWf_del (k : String) (l : KV α) (h : kvWf l) :
    kvWf (kvDel k l) := by
  induction l with
  | nil => simpa [kvDel] using h
  | cons p rest ih =>
    obtain ⟨k2, w⟩ := p
    simp only [kvWf, kvKeys, List.nodup_cons] at h
    by_cases h2 : k2 = k
    · simp only [kvDel, h2, beq_self_eq_true, if_true]
      exact ih h.2
    · have hb : (k2 == k) = false := by simp [h2]
      simp only [kvDel, hb, Bool.false_eq_true, if_false, kvWf, kvKeys, List.nodup_cons]
      exact ⟨fun hmem => h.1 (mem_kvKeys_del k2 k rest hmem), ih h.2⟩

theorem kvDel_not_mem (k : String) (l : KV α) (h : k ∉ kvKeys l) :
    kvDel k l = l := by
  induction l with
  | nil => simp [kvDel]
  | cons p rest ih =>
    obtain ⟨k2, w⟩ := p
    simp [kvKeys] at h
    simp [kvDel, Ne.symm h.1, ih h.2]

end KvLemmas

section CountLemmas

theorem adminsIn_spec (l : KV UserRec) :
    ((l.map fun p => (⟨p.2.username, p.2.role, p.2.createdAt⟩ : UserView)).filter
      (fun u => u.role == Role.admin)).length = adminsIn l := by
  induction l with
  | nil => simp [adminsIn]
  | cons p rest ih =>
    obtain ⟨k, u⟩ := p
    by_cases h : u.role = Role.admin
    · simp [adminsIn, List.filter_cons, h, ih]
      omega
    · simp [adminsIn, List.filter_cons, h, ih]

theorem adminCount_eq (s : Store) : adminCount s = adminsIn s.users :=
  adminsIn_spec s.users

theorem adminsIn_set_same_role (k : String) (a b : UserRec) (l : KV UserRec)
    (h : kvGet k l = some a) (hr : b.role = a.role) :
    adminsIn (kvSet k b l) = adminsIn l := by
  induction l with
  | nil => simp [kvGet] at h
  | cons p rest ih =>
    obtain ⟨k2, w⟩ := p
    by_cases h2 : k2 = k
    · subst h2
      simp [kvGet] at h
      subst h
      simp [kvSet, adminsIn, hr]
    · simp [kvGet, h2] at h
      simp [kvSet, h2, adminsIn, ih h]

theorem adminsIn_set_new (k : String) (b : UserRec) (l : KV UserRec)
    (h : kvGet k l = none) :
    adminsIn (kvSet k b l) =
      adminsIn l + (if b.role == Role.admin then 1 else 0) := by
  induction l with
  | nil => simp [kvSet, adminsIn]
  | cons p rest ih =>
    obtain ⟨k2, w⟩ := p
    by_cases h2 : k2 = k
    · simp [kvGet, h2] at h
    · simp [kvGet, h2] at h
      simp [kvSet, h2, adminsIn, ih h]
      omega

theorem adminsIn_del (k : String) (a : UserRec) (l : KV UserRec)
    (hwf : kvWf l) (h : kvGet k l = some a) :
    adminsIn l = adminsIn (kvDel k l) + (if a.role == Role.admin then 1 else 0) := by
  induction l with
  | nil => simp [kvGet] at h
  | cons p rest ih =>
    obtain ⟨k2, w⟩ := p
    simp only [kvWf, kvKeys, List.nodup_cons] at hwf
    by_cases h2 : k2 = k
    · subst h2
      simp [kvGet] at h
      subst h
      simp [kvDel, kvDel_not_mem k2 rest hwf.1, adminsIn]
      omega
    · simp [kvGet, h2] at h
      simp [kvDel, h2, adminsIn, ih hwf.2 h]
      omega

end CountLemmas

section OpLemmas

theorem createUser_frame (u p : String) (r : Role) (salt now : Nat) (s : Store) :
    (createUser u p r salt now s).1.sessions = s.sessions ∧
    (createUser u p r salt now s).1.ratelimits = s.ratelimits ∧
    (createUser u p r salt now s).1.stats = s.stats := by
  unfold createUser
  dsimp only
  repeat' split
  all_goals exact ⟨rfl, rfl, rfl⟩

theorem createUser_users_shape (u p : String) (r : Role) (salt now : Nat) (s : Store) :
    (createUser u p r salt now s).1.users = s.users ∨
    (kvGet u s.users = none ∧
      (createUser u p r salt now s).1.users =
        kvSet u ⟨u, bcryptHash p salt, r, now⟩ s.users) := by
  unfold createUser
  cases hg : kvGet u s.users with
  | some w => exact Or.inl rfl
  | none =>
    dsimp only
    repeat' split
    all_goals first
    | exact Or.inl rfl
    | exact Or.inr ⟨rfl, rfl⟩

theorem updateUserPassword_frame (u p : String) (salt : Nat) (s : Store) :
    (updateUserPassword u p salt s).1.sessions = s.sessions ∧
    (updateUserPassword u p salt s).1.ratelimits = s.ratelimits ∧
    (updateUserPassword u p salt s).1.stats = s.stats := by
  unfold updateUserPassword
  dsimp only
  repeat' split
  all_goals exact ⟨rfl, rfl, rfl⟩

theorem updateUserPassword_users_shape (u p : String) (salt : Nat) (s : Store) :
    (updateUserPassword u p salt s).1.users = s.users ∨
    (∃ u0, kvGet u s.users = some u0 ∧
      (updateUserPassword u p salt s).1.users =
        kvSet u { u0 with passwordHash := bcryptHash p salt } s.users) := by
  unfold updateUserPassword
  cases hg : kvGet u s.users with
  | none => exact Or.inl rfl
  | some u0 =>
    dsimp only
    repeat' split
    all_goals first
    | exact Or.inl rfl
    | exact Or.inr ⟨u0, rfl, rfl⟩

theorem deleteUser_frame (u : String) (s : Store) :
    (deleteUser u s).1.sessions = s.sessions ∧
    (deleteUser u s).1.ratelimits = s.ratelimits ∧
    (deleteUser u s).1.stats = s.stats := by
  unfold deleteUser
  dsimp only
  repeat' split
  all_goals exact ⟨rfl, rfl, rfl⟩

theorem deleteUser_users_shape (u : String) (s : Store) :
    (deleteUser u s).1.users = s.users ∨
    (∃ u0, kvGet u s.users = some u0 ∧
      (u0.role == Role.admin && adminCount s == 1) = false ∧
      (deleteUser u s).1.users = kvDel u s.users) := by
  unfold deleteUser
  cases hg : kvGet u s.users with
  | none => exact Or.inl rfl
  | some u0 =>
    dsimp only
    split
    · exact Or.inl rfl
    · next hguard =>
      rw [Bool.not_eq_true] at hguard
      exact Or.inr ⟨u0, rfl, hguard, rfl⟩

theorem login_users (u p : String) (now : Nat) (tok : String) (b : Bool) (s : Store) :
    (login u p now tok b s).1.users = s.users := by
  simp only [login]
  repeat' split
  all_goals rfl

theorem login_locked (u p : String) (now : Nat) (tok : String) (b : Bool) (s : Store)
    (h : rlLocked (kvGet u s.ratelimits) = true) :
    login u p now tok b s =
      (s, .err "Too many login attempts. Please try again in 15 minutes.") := by
  simp [login, h]

theorem login_fail_step (u p : String) (now : Nat) (tok : String) (b : Bool) (s : Store)
    (u0 : UserRec) (hu : kvGet u s.users = some u0)
    (hl : rlLocked (kvGet u s.ratelimits) = false)
    (hp : bcryptCompare p u0.passwordHash = false) :
    login u p now tok b s =
      ({ s with ratelimits := kvSet u ((kvGet u s.ratelimits).getD 0 + 1) s.ratelimits },
        .err "Invalid credentials") := by
  simp [login, hu, hl, hp]

theorem login_fail_nouser (u p : String) (now : Nat) (tok : String) (b : Bool) (s : Store)
    (hu : kvGet u s.users = none)
    (hl : rlLocked (kvGet u s.ratelimits) = false) :
    login u p now tok b s =
      ({ s with ratelimits := kvSet u ((kvGet u s.ratelimits).getD 0 + 1) s.ratelimits },
        .err "Invalid credentials") := by
  simp [login, hu, hl]

theorem login_success_shape (u p : String) (now : Nat) (tok : String) (s : Store)
    (u0 : UserRec) (hu : kvGet u s.users = some u0)
    (hl : rlLocked (kvGet u s.ratelimits) = false)
    (hp : bcryptCompare p u0.passwordHash = true) :
    login u p now tok true s =
      ({ s with ratelimits := kvDel u s.ratelimits,
                sessions := kvSet tok ⟨tok, u0.username, u0.role, now, now + 604800000⟩ s.sessions,
                stats := some ⟨(s.stats.getD ⟨0, none, 0⟩).totalLogins + 1, some now,
                  (s.stats.getD ⟨0, none, 0⟩).profileViews⟩ },
        .ok tok u0.role) := by
  simp [login, hu, hl, hp]

theorem login_statsfail_shape (u p : String) (now : Nat) (tok : String) (s : Store)
    (u0 : UserRec) (hu : kvGet u s.users = some u0)
    (hl : rlLocked (kvGet u s.ratelimits) = false)
    (hp : bcryptCompare p u0.passwordHash = true) :
    login u p now tok false s =
      ({ s with ratelimits := kvDel u s.ratelimits,
                sessions := kvSet tok ⟨tok, u0.username, u0.role, now, now + 604800000⟩ s.sessions },
        .exn) := by
  simp [login, hu, hl, hp]

theorem login_rl_other (u u2 p : String) (now : Nat) (tok : String) (b : Bool) (s : Store)
    (h : u ≠ u2) :
    kvGet u (login u2 p now tok b s).1.ratelimits = kvGet u s.ratelimits := by
  simp only [login]
  repeat' split
  all_goals simp [kvGet_set_ne u2 u _ _ h, kvGet_del_ne u2 u _ h]

theorem login_success_rl (u p : String) (now : Nat) (tok : String) (b : Bool) (s : Store)
    (tk : String) (r : Role)
    (h : (login u p now tok b s).2 = .ok tk r) :
    kvGet u (login u p now tok b s).1.ratelimits = none := by
  by_cases hl : rlLocked (kvGet u s.ratelimits) = true
  · rw [login_locked u p now tok b s hl] at h
    simp at h
  · rw [Bool.not_eq_true] at hl
    cases hu : kvGet u s.users with
    | none =>
      rw [login_fail_nouser u p now tok b s hu hl] at h
      simp at h
    | some u0 =>
      by_cases hp : bcryptCompare p u0.passwordHash = true
      · cases b with
        | true =>
          rw [login_success_shape u p now tok s u0 hu hl hp]
          exact kvGet_del_self u s.ratelimits
        | false =>
          rw [login_statsfail_shape u p now tok s u0 hu hl hp] at h
          simp at h
      · rw [Bool.not_eq_true] at hp
        rw [login_fail_step u p now tok b s u0 hu hl hp] at h
        simp at h

theorem validateSession_frame (tok : String) (now : Nat) (s : Store) :
    (validateSession tok now s).1.users = s.users ∧
    (validateSession tok now s).1.ratelimits = s.ratelimits ∧
    (validateSession tok now s).1.stats = s.stats ∧
    ((validateSession tok now s).1.sessions = s.sessions ∨
      (validateSession tok now s).1.sessions = kvDel tok s.sessions) := by
  unfold validateSession
  split
  · exact ⟨rfl, rfl, rfl, Or.inl rfl⟩
  · split
    · exact ⟨rfl, rfl, rfl, Or.inl rfl⟩
    · split
      · exact ⟨rfl, rfl, rfl, Or.inr rfl⟩
      · exact ⟨rfl, rfl, rfl, Or.inl rfl⟩

theorem requireAdmin_store (tok : String) (now : Nat) (s : Store) :
    (requireAdmin tok now s).1 = (validateSession tok now s).1 := by
  unfold requireAdmin
  rcases hv : validateSession tok now s with ⟨s1, v⟩
  cases v with
  | invalid => simp [hv]
  | valid un r =>
    simp only [hv]
    split
    · rfl
    · rfl

theorem initUsers_frame (a b na nb : Nat) (s : Store) :
    (initUsers a b na nb s).sessions = s.sessions ∧
    (initUsers a b na nb s).ratelimits = s.ratelimits ∧
    (initUsers a b na nb s).stats = s.stats := by
  unfold initUsers
  split
  · exact ⟨rfl, rfl, rfl⟩
  · exact ⟨rfl, rfl, rfl⟩

theorem initUsers_users_shape (a b na nb : Nat) (s : Store) :
    (initUsers a b na nb s).users = s.users ∨
    (s.users = [] ∧
      (initUsers a b na nb s).users =
        [("vossi", ⟨"vossi", bcryptHash "password" a, Role.admin, na⟩),
         ("hannes", ⟨"hannes", bcryptHash "1511" b, Role.user, nb⟩)]) := by
  unfold initUsers
  split
  · next hlen =>
    have hemp : s.users = [] := by
      cases hu : s.users with
      | nil => rfl
      | cons x xs => rw [hu] at hlen; simp at hlen
    refine Or.inr ⟨hemp, ?_⟩
    simp only [hemp]
    have hne : (("vossi" : String) == "hannes") = false := by decide
    simp [kvSet, hne]
  · exact Or.inl rfl

end OpLemmas

section Invariants

theorem invC2_applyOp (s : Store) (op : Op)
    (h : kvWf s.users ∧ 1 ≤ adminsIn s.users) :
    kvWf (applyOp s op).users ∧ 1 ≤ adminsIn (applyOp s op).users := by
  obtain ⟨hwf, hcnt⟩ := h
  cases op with
  | createU u p r salt now =>
    rcases createUser_users_shape u p r salt now s with hs | ⟨hg, hs⟩
    · simp only [applyOp, hs]
      exact ⟨hwf, hcnt⟩
    · simp only [applyOp, hs]
      refine ⟨kvWf_set _ _ _ hwf, ?_⟩
      rw [adminsIn_set_new _ _ _ hg]
      omega
  | updatePw u p salt =>
    rcases updateUserPassword_users_shape u p salt s with hs | ⟨u0, hg, hs⟩
    · simp only [applyOp, hs]
      exact ⟨hwf, hcnt⟩
    · simp only [applyOp, hs]
      refine ⟨kvWf_set _ _ _ hwf, ?_⟩
      rw [adminsIn_set_same_role u u0
        { u0 with passwordHash := bcryptHash p salt } s.users hg rfl]
      exact hcnt
  | deleteU u =>
    rcases deleteUser_users_shape u s with hs | ⟨u0, hg, hguard, hs⟩
    · simp only [applyOp, hs]
      exact ⟨hwf, hcnt⟩
    · simp only [applyOp, hs]
      refine ⟨kvWf_del _ _ hwf, ?_⟩
      have hdel := adminsIn_del u u0 s.users hwf hg
      by_cases hrole : u0.role = Role.admin
      · have hc1 : adminsIn s.users ≠ 1 := by
          intro hc
          rw [adminCount_eq] at hguard
          simp [hrole, hc] at hguard
        simp [hrole] at hdel
        omega
      · simp [hrole] at hdel
        omega
  | loginOp u p now tok b =>
    have husers := login_users u p now tok b s
    simp only [applyOp, husers]
    exact ⟨hwf, hcnt⟩
  | logoutOp tok =>
    exact ⟨hwf, hcnt⟩
  | validateOp tok now =>
    have h1 := (validateSession_frame tok now s).1
    simp only [applyOp, h1]
    exact ⟨hwf, hcnt⟩
  | requireAdminOp tok now =>
    have h1 : (requireAdmin tok now s).1.users = s.users := by
      rw [requireAdmin_store]
      exact (validateSession_frame tok now s).1
    simp only [applyOp, h1]
    exact ⟨hwf, hcnt⟩
  | initOp a b na nb =>
    rcases initUsers_users_shape a b na nb s with hs | ⟨hemp, hs⟩
    · simp only [applyOp, hs]
      exact ⟨hwf, hcnt⟩
    · simp only [applyOp, hs]
      refine ⟨?_, ?_⟩
      · simp only [kvWf, kvKeys]
        decide
      · simp [adminsIn]

theorem invC2_runOps (s : Store) (ops : List Op)
    (h : kvWf s.users ∧ 1 ≤ adminsIn s.users) :
    kvWf (runOps s ops).users ∧ 1 ≤ adminsIn (runOps s ops).users := by
  induction ops generalizing s with
  | nil => exact h
  | cons op rest ih =>
    simp only [runOps, List.foldl_cons]
    exact ih (applyOp s op) (invC2_applyOp s op h)

theorem rl_applyOp (s : Store) (op : Op) (u : String) (n : Nat)
    (h5 : 5 ≤ n) (h : kvGet u s.ratelimits = some n) :
    kvGet u (applyOp s op).ratelimits = some n := by
  cases op with
  | createU u2 p r salt now =>
    simp only [applyOp, (createUser_frame u2 p r salt now s).2.1]
    exact h
  | updatePw u2 p salt =>
    simp only [applyOp, (updateUserPassword_frame u2 p salt s).2.1]
    exact h
  | deleteU u2 =>
    simp only [applyOp, (deleteUser_frame u2 s).2.1]
    exact h
  | loginOp u2 p now tok b =>
    by_cases he : u = u2
    · subst he
      have hl : rlLocked (kvGet u s.ratelimits) = true := by
        rw [h]
        simp [rlLocked]
        omega
      simp only [applyOp, login_locked u p now tok b s hl]
      exact h
    · simp only [applyOp]
      rw [login_rl_other u u2 p now tok b s he]
      exact h
  | logoutOp tok =>
    exact h
  | validateOp tok now =>
    simp only [applyOp, (validateSession_frame tok now s).2.1]
    exact h
  | requireAdminOp tok now =>
    have h1 : (requireAdmin tok now s).1.ratelimits = s.ratelimits := by
      rw [requireAdmin_store]
      exact (validateSession_frame tok now s).2.1
    simp only [applyOp, h1]
    exact h
  | initOp a b na nb =>
    simp only [applyOp, (initUsers_frame a b na nb s).2.1]
    exact h

theorem rl_runOps (s : Store) (ops : List Op) (u : String) (n : Nat)
    (h5 : 5 ≤ n) (h : kvGet u s.ratelimits = some n) :
    kvGet u (runOps s ops).ratelimits = some n := by
  induction ops generalizing s with
  | nil => exact h
  | cons op rest ih =>
    simp only [runOps, List.foldl_cons]
    exact ih (applyOp s op) (rl_applyOp s op u n h5 h)

end Invariants

section Helpers

theorem string_append_cancel (p q r : String) (h : p ++ r = q ++ r) : p = q := by
  have hd := congrArg String.data h
  simp only [String.data_append] at hd
  exact String.ext (List.append_cancel_right hd)

theorem initStore_users (a b na nb : Nat) :
    (initStore a b na nb).users =
      [("vossi", ⟨"vossi", bcryptHash "password" a, Role.admin, na⟩),
       ("hannes", ⟨"hannes", bcryptHash "1511" b, Role.user, nb⟩)] := rfl

theorem rlLocked_lt (c : Nat) (h : c < 5) : rlLocked (some c) = false := by
  simp [rlLocked]
  omega

theorem rlLocked_ge (c : Nat) (h : 5 ≤ c) : rlLocked (some c) = true := by
  simp [rlLocked]
  omega

theorem login_fail_from_none (s : Store) (u w : String) (m : Nat) (t : String) (b : Bool)
    (u0 : UserRec) (hu : kvGet u s.users = some u0)
    (hc : kvGet u s.ratelimits = none)
    (hw : bcryptCompare w u0.passwordHash = false) :
    (login u w m t b s).1.users = s.users ∧
    kvGet u (login u w m t b s).1.ratelimits = some 1 ∧
    (login u w m t b s).2 = .err "Invalid credentials" := by
  have hl : rlLocked (kvGet u s.ratelimits) = false := by rw [hc]; rfl
  rw [login_fail_step u w m t b s u0 hu hl hw]
  refine ⟨rfl, ?_, rfl⟩
  rw [hc]
  exact kvGet_set_self u 1 s.ratelimits

theorem login_fail_from_count (s : Store) (u w : String) (m : Nat) (t : String) (b : Bool)
    (u0 : UserRec) (c : Nat) (hu : kvGet u s.users = some u0)
    (hc : kvGet u s.ratelimits = some c) (hlt : c < 5)
    (hw : bcryptCompare w u0.passwordHash = false) :
    (login u w m t b s).1.users = s.users ∧
    kvGet u (login u w m t b s).1.ratelimits = some (c + 1) ∧
    (login u w m t b s).2 = .err "Invalid credentials" := by
  have hl : rlLocked (kvGet u s.ratelimits) = false := by
    rw [hc]
    exact rlLocked_lt c hlt
  rw [login_fail_step u w m t b s u0 hu hl hw]
  refine ⟨rfl, ?_, rfl⟩
  rw [hc]
  exact kvGet_set_self u (c + 1) s.ratelimits

end Helpers

section Claims

/-- C3: validateSession returns invalid when no record exists for the
token; when a record exists but is expired (expiry strictly in the past) it
deletes the record and returns invalid, so an immediate lookup of the
session key finds nothing; otherwise it returns valid with exactly the
username and role stored at issuance, and the verdict depends only on the
session family, never on the credential store.  The hypothesis that nothing
is stored under the empty token holds in every reachable store (sessions
are keyed by issued 64-character tokens); the source rejects the empty,
falsy token before the lookup. -/
theorem validateSession_spec (s : Store) (now : Nat) (tok : String)
    (hempty : kvGet "" s.sessions = none) :
    (kvGet tok s.sessions = none → validateSession tok now s = (s, .invalid)) ∧
    (∀ sess, kvGet tok s.sessions = some sess → sess.expiresAt < now →
      validateSession tok now s =
        ({ s with sessions := kvDel tok s.sessions }, .invalid) ∧
      kvGet tok (validateSession tok now s).1.sessions = none) ∧
    (∀ sess, kvGet tok s.sessions = some sess → ¬ sess.expiresAt < now →
      validateSession tok now s = (s, .valid sess.username sess.role)) ∧
    (∀ s2 : Store, s2.sessions = s.sessions →
      (validateSession tok now s2).2 = (validateSession tok now s).2) := by
  by_cases htok : tok = ""
  · subst htok
    refine ⟨?_, ?_, ?_, ?_⟩
    · intro _
      simp [validateSession]
    · intro sess hs
      rw [hempty] at hs
      cases hs
    · intro sess hs
      rw [hempty] at hs
      cases hs
    · intro s2 _
      simp [validateSession]
  · have htokb : (tok == "") = false := by simp [htok]
    refine ⟨?_, ?_, ?_, ?_⟩
    · intro hg
      simp [validateSession, htokb, hg]
    · intro sess hg hexp
      have hv : validateSession tok now s =
          ({ s with sessions := kvDel tok s.sessions }, .invalid) := by
        simp [validateSession, htokb, hg, hexp]
      refine ⟨hv, ?_⟩
      rw [hv]
      exact kvGet_del_self tok s.sessions
    · intro sess hg hexp
      simp [validateSession, htokb, hg, hexp]
    · intro s2 hsess
      simp only [validateSession, htokb, hsess]
      cases kvGet tok s.sessions with
      | none => rfl
      | some sess =>
        repeat' split
        all_goals rfl

theorem validateSession_spec_witness :
    validateSession "t" 9 liveSessionStore =
      (liveSessionStore, ValidateResult.valid "hannes" Role.user) ∧
    (validateSession "t" 2000 liveSessionStore =
      ({ liveSessionStore with sessions := kvDel "t" liveSessionStore.sessions },
        ValidateResult.invalid) ∧
      kvGet "t" (validateSession "t" 2000 liveSessionStore).1.sessions = none) ∧
    validateSession "x" 9 liveSessionStore = (liveSessionStore, ValidateResult.invalid) := by
  refine ⟨?_, ?_, ?_⟩
  · exact (validateSession_spec liveSessionStore 9 "t" (by decide)).2.2.1
      ⟨"t", "hannes", Role.user, 0, 1000⟩ (by decide) (by decide)
  · exact (validateSession_spec liveSessionStore 2000 "t" (by decide)).2.1
      ⟨"t", "hannes", Role.user, 0, 1000⟩ (by decide) (by decide)
  · exact (validateSession_spec liveSessionStore 9 "x" (by decide)).1 (by decide)

/-- C4 counterexample: on the initialized store, createUser for the present
username vossi with the three-character password abc (an invalid shape)
returns the AlreadyExists error, not InvalidInput, because the source
performs the existence lookup before any validation; so the claim that
invalid-shape input always yields InvalidInput with no storage access is
false. -/
theorem createUser_shape_check_cex :
    "abc".length < 4 ∧
    (kvGet "vossi" (initStore 0 1 2 3).users).isSome = true ∧
    createUser "vossi" "abc" Role.user 7 9 (initStore 0 1 2 3) =
      (initStore 0 1 2 3, OpResult.err "User already exists") ∧
    (createUser "vossi" "abc" Role.user 7 9 (initStore 0 1 2 3)).2 ≠
      OpResult.err "Password must be at least 4 characters" := by decide

/-- C4 (amended): createUser consults the store first: when the username is
bound it returns AlreadyExists whatever the shape of the input; only when
the username is absent is the shape validated, the username-length error
taking precedence over the password-length error, and every failing case
leaves the store unchanged. -/
theorem createUser_existence_first_spec (s : Store) (u p : String) (r : Role)
    (salt now : Nat) :
    (∀ u0, kvGet u s.users = some u0 →
      createUser u p r salt now s = (s, .err "User already exists")) ∧
    (kvGet u s.users = none → (u.length < 3 ∨ 20 < u.length) →
      createUser u p r salt now s =
        (s, .err "Username must be between 3 and 20 characters")) ∧
    (kvGet u s.users = none → 3 ≤ u.length → u.length ≤ 20 → p.length < 4 →
      createUser u p r salt now s =
        (s, .err "Password must be at least 4 characters")) := by
  refine ⟨?_, ?_, ?_⟩
  · intro u0 hg
    simp [createUser, hg]
  · intro hg hbad
    have hcond : (u.length < 3 || u.length > 20) = true := by
      rcases hbad with h | h <;> simp [h]
    simp [createUser, hg, hcond]
  · intro hg h3 h20 hp
    have hcond : (u.length < 3 || u.length > 20) = false := by
      simp
      omega
    simp [createUser, hg, hcond, hp]

theorem createUser_existence_first_spec_witness :
    createUser "vossi" "abc" Role.user 7 9 (initStore 0 1 2 3) =
      (initStore 0 1 2 3, OpResult.err "User already exists") ∧
    createUser "ab" "abcd" Role.user 7 9 (initStore 0 1 2 3) =
      (initStore 0 1 2 3, OpResult.err "Username must be between 3 and 20 characters") ∧
    createUser "newbie" "abc" Role.user 7 9 (initStore 0 1 2 3) =
      (initStore 0 1 2 3, OpResult.err "Password must be at least 4 characters") := by
  refine ⟨?_, ?_, ?_⟩
  · exact (createUser_existence_first_spec (initStore 0 1 2 3) "vossi" "abc"
      Role.user 7 9).1 ⟨"vossi", bcryptHash "password" 0, Role.admin, 2⟩ (by decide)
  · exact (createUser_existence_first_spec (initStore 0 1 2 3) "ab" "abcd"
      Role.user 7 9).2.1 (by decide) (Or.inl (by decide))
  · exact (createUser_existence_first_spec (initStore 0 1 2 3) "newbie" "abc"
      Role.user 7 9).2.2 (by decide) (by decide) (by decide) (by decide)

/-- C5 counterexample: requireAdmin does not always leave the store
unchanged: on a store holding an expired session for the token, the call
(through validateSession) deletes that record, so the resulting store
differs from the input. -/
theorem requireAdmin_mutation_cex :
    (requireAdmin "t" 11 expiredStore).1 ≠ expiredStore := by decide

/-- C5 (amended): requireAdmin never touches user records, rate-limit
counters or statistics; its only possible write is the lazy deletion,
inside validateSession, of the given token's expired session record. -/
theorem requireAdmin_frame_spec (tok : String) (now : Nat) (s : Store) :
    (requireAdmin tok now s).1.users = s.users ∧
    (requireAdmin tok now s).1.ratelimits = s.ratelimits ∧
    (requireAdmin tok now s).1.stats = s.stats ∧
    ((requireAdmin tok now s).1.sessions = s.sessions ∨
      (requireAdmin tok now s).1.sessions = kvDel tok s.sessions) := by
  rw [requireAdmin_store]
  exact validateSession_frame tok now s

/-- C6 counterexample: on the initialized store with the correct password,
a failing statistics write makes login surface the exception (the route
layer reports a server error) instead of returning Success with the token,
even though the session record has been stored. -/
theorem login_stats_failure_cex :
    (login "vossi" "password" 5 "tk" false (initStore 0 1 2 3)).2 = LoginResult.exn ∧
    (login "vossi" "password" 5 "tk" false (initStore 0 1 2 3)).2 ≠
      LoginResult.ok "tk" Role.admin ∧
    kvGet "tk" (login "vossi" "password" 5 "tk" false (initStore 0 1 2 3)).1.sessions =
      some ⟨"tk", "vossi", Role.admin, 5, 604800005⟩ := by decide

/-- C6 (amended): when the statistics write fails after the password check
succeeded, the stored session and the cleared rate-limit counter survive
and the statistics record is unchanged, but login does not return Success:
the exception escapes (the source has no try/catch around the statistics
step), so the caller sees a failure and the token is not delivered. -/
theorem login_stats_failure_spec (s : Store) (u p : String) (now : Nat) (tok : String)
    (u0 : UserRec) (hu : kvGet u s.users = some u0)
    (hl : rlLocked (kvGet u s.ratelimits) = false)
    (hp : bcryptCompare p u0.passwordHash = true) :
    (login u p now tok false s).2 = LoginResult.exn ∧
    (∀ tk r, (login u p now tok false s).2 ≠ LoginResult.ok tk r) ∧
    kvGet tok (login u p now tok false s).1.sessions =
      some ⟨tok, u0.username, u0.role, now, now + 604800000⟩ ∧
    kvGet u (login u p now tok false s).1.ratelimits = none ∧
    (login u p now tok false s).1.stats = s.stats := by
  rw [login_statsfail_shape u p now tok s u0 hu hl hp]
  refine ⟨rfl, ?_, kvGet_set_self _ _ _, kvGet_del_self _ _, rfl⟩
  intro tk r h
  exact LoginResult.noConfusion h

theorem login_stats_failure_spec_witness :
    (login "vossi" "password" 5 "tk" false (initStore 0 1 2 3)).1.stats =
      (initStore 0 1 2 3).stats ∧
    kvGet "tk" (login "vossi" "password" 5 "tk" false (initStore 0 1 2 3)).1.sessions =
      some ⟨"tk", "vossi", Role.admin, 5, 604800005⟩ ∧
    kvGet "vossi" (login "vossi" "password" 5 "tk" false (initStore 0 1 2 3)).1.ratelimits =
      none := by
  have h := login_stats_failure_spec (initStore 0 1 2 3) "vossi" "password" 5 "tk"
    ⟨"vossi", bcryptHash "password" 0, Role.admin, 2⟩ (by decide) (by decide) (by decide)
  exact ⟨h.2.2.2.2, h.2.2.1, h.2.2.2.1⟩

/-- C8: logout is idempotent and total: for every token, including one with
no session record or an expired one, it deletes the session binding if
present and completes without error (the source logout is a single
unconditional delete with no failure path of its own); a second logout with
the same token leaves exactly the state of the first, and nothing besides
the session binding of that token is touched. -/
theorem logout_idempotent_spec (s : Store) (tok : String) :
    logout tok (logout tok s) = logout tok s ∧
    kvGet tok (logout tok s).sessions = none ∧
    (∀ t2, t2 ≠ tok → kvGet t2 (logout tok s).sessions = kvGet t2 s.sessions) ∧
    (logout tok s).users = s.users ∧
    (logout tok s).ratelimits = s.ratelimits ∧
    (logout tok s).stats = s.stats := by
  refine ⟨?_, kvGet_del_self tok s.sessions, ?_, rfl, rfl, rfl⟩
  · simp [logout, kvDel_idem]
  · intro t2 h2
    exact kvGet_del_ne tok t2 s.sessions h2

theorem logout_idempotent_spec_witness :
    logout "t" (logout "t" expiredStore) = logout "t" expiredStore ∧
    kvGet "t" (logout "t" expiredStore).sessions = none ∧
    kvGet "u" (logout "t" expiredStore).sessions = kvGet "u" expiredStore.sessions := by
  have h := logout_idempotent_spec expiredStore "t"
  exact ⟨h.1, h.2.1, h.2.2.1 "u" (by decide)⟩

/-- C9: for an existing user and a valid new password, updateUserPassword
replaces only the stored digest: the record keeps its role and creation
timestamp, every other user binding is unchanged, and sessions, rate-limit
counters and statistics are untouched; for an absent username it returns
NotFound and changes nothing. -/
theorem updateUserPassword_frame_spec (s : Store) (u p : String) (salt : Nat) :
    (kvGet u s.users = none →
      updateUserPassword u p salt s = (s, .err "User not found")) ∧
    (∀ u0, kvGet u s.users = some u0 → 4 ≤ p.length →
      (updateUserPassword u p salt s).2 = .ok ∧
      kvGet u (updateUserPassword u p salt s).1.users =
        some { u0 with passwordHash := bcryptHash p salt } ∧
      (∀ v, v ≠ u →
        kvGet v (updateUserPassword u p salt s).1.users = kvGet v s.users) ∧
      (updateUserPassword u p salt s).1.sessions = s.sessions ∧
      (updateUserPassword u p salt s).1.ratelimits = s.ratelimits ∧
      (updateUserPassword u p salt s).1.stats = s.stats) := by
  constructor
  · intro hg
    simp [updateUserPassword, hg]
  · intro u0 hg hlen
    have hlen2 : ¬ p.length < 4 := by omega
    have hshape : updateUserPassword u p salt s =
        ({ s with users := kvSet u { u0 with passwordHash := bcryptHash p salt } s.users },
          .ok) := by
      simp [updateUserPassword, hg, hlen2]
    rw [hshape]
    refine ⟨rfl, kvGet_set_self _ _ _, ?_, rfl, rfl, rfl⟩
    intro v hv
    exact kvGet_set_ne u v _ s.users hv

theorem updateUserPassword_frame_spec_witness :
    (updateUserPassword "vossi" "newpw" 9 (initStore 0 1 2 3)).2 = OpResult.ok ∧
    kvGet "vossi" (updateUserPassword "vossi" "newpw" 9 (initStore 0 1 2 3)).1.users =
      some ⟨"vossi", bcryptHash "newpw" 9, Role.admin, 2⟩ ∧
    kvGet "hannes" (updateUserPassword "vossi" "newpw" 9 (initStore 0 1 2 3)).1.users =
      kvGet "hannes" (initStore 0 1 2 3).users ∧
    updateUserPassword "absent" "newpw" 9 (initStore 0 1 2 3) =
      (initStore 0 1 2 3, OpResult.err "User not found") := by
  have h := (updateUserPassword_frame_spec (initStore 0 1 2 3) "vossi" "newpw" 9).2
    ⟨"vossi", bcryptHash "password" 0, Role.admin, 2⟩ (by decide) (by decide)
  have h2 := (updateUserPassword_frame_spec (initStore 0 1 2 3) "absent" "newpw" 9).1
    (by decide)
  exact ⟨h.1, h.2.1, h.2.2.1 "hannes" (by decide), h2⟩

/-- C1: the lockout predicate of login holds exactly when the stored
counter is at least five; five consecutive failed attempts for a username
starting from no counter leave the counter at 1, 2, 3, 4 and 5 in turn, and
the sixth attempt fails with the TooManyAttempts error even with the
correct password; and whenever login returns Success the rate-limit counter
of that username has been deleted. -/
theorem login_rate_limit_spec :
    (∀ o : Option Nat, rlLocked o = true ↔ ∃ n, o = some n ∧ 5 ≤ n) ∧
    (∀ (s : Store) (u : String) (u0 : UserRec) (w1 w2 w3 w4 w5 rp : String)
       (m1 m2 m3 m4 m5 m6 : Nat) (t1 t2 t3 t4 t5 t6 : String)
       (b1 b2 b3 b4 b5 b6 : Bool),
      kvGet u s.ratelimits = none →
      kvGet u s.users = some u0 →
      bcryptCompare w1 u0.passwordHash = false →
      bcryptCompare w2 u0.passwordHash = false →
      bcryptCompare w3 u0.passwordHash = false →
      bcryptCompare w4 u0.passwordHash = false →
      bcryptCompare w5 u0.passwordHash = false →
      bcryptCompare rp u0.passwordHash = true →
      let s1 := (login u w1 m1 t1 b1 s).1
      let s2 := (login u w2 m2 t2 b2 s1).1
      let s3 := (login u w3 m3 t3 b3 s2).1
      let s4 := (login u w4 m4 t4 b4 s3).1
      let s5 := (login u w5 m5 t5 b5 s4).1
      kvGet u s1.ratelimits = some 1 ∧
      kvGet u s2.ratelimits = some 2 ∧
      kvGet u s3.ratelimits = some 3 ∧
      kvGet u s4.ratelimits = some 4 ∧
      kvGet u s5.ratelimits = some 5 ∧
      login u rp m6 t6 b6 s5 =
        (s5, .err "Too many login attempts. Please try again in 15 minutes.")) ∧
    (∀ (s : Store) (u p : String) (now : Nat) (tok : String) (b : Bool)
       (tk : String) (r : Role),
      (login u p now tok b s).2 = .ok tk r →
      kvGet u (login u p now tok b s).1.ratelimits = none) := by
  refine ⟨?_, ?_, ?_⟩
  · intro o
    cases o with
    | none => simp [rlLocked]
    | some n =>
      simp [rlLocked]
      omega
  · intro s u u0 w1 w2 w3 w4 w5 rp m1 m2 m3 m4 m5 m6 t1 t2 t3 t4 t5 t6
      b1 b2 b3 b4 b5 b6 hc hu hw1 hw2 hw3 hw4 hw5 hrp
    have st1 := login_fail_from_none s u w1 m1 t1 b1 u0 hu hc hw1
    have hu1 : kvGet u (login u w1 m1 t1 b1 s).1.users = some u0 := by
      rw [st1.1]
      exact hu
    have st2 := login_fail_from_count (login u w1 m1 t1 b1 s).1 u w2 m2 t2 b2 u0 1
      hu1 st1.2.1 (by omega) hw2
    have hu2 : kvGet u (login u w2 m2 t2 b2 (login u w1 m1 t1 b1 s).1).1.users = some u0 := by
      rw [st2.1]
      exact hu1
    have st3 := login_fail_from_count _ u w3 m3 t3 b3 u0 2 hu2 st2.2.1 (by omega) hw3
    have hu3 : kvGet u (login u w3 m3 t3 b3
        (login u w2 m2 t2 b2 (login u w1 m1 t1 b1 s).1).1).1.users = some u0 := by
      rw [st3.1]
      exact hu2
    have st4 := login_fail_from_count _ u w4 m4 t4 b4 u0 3 hu3 st3.2.1 (by omega) hw4
    have hu4 : kvGet u (login u w4 m4 t4 b4 (login u w3 m3 t3 b3
        (login u w2 m2 t2 b2 (login u w1 m1 t1 b1 s).1).1).1).1.users = some u0 := by
      rw [st4.1]
      exact hu3
    have st5 := login_fail_from_count _ u w5 m5 t5 b5 u0 4 hu4 st4.2.1 (by omega) hw5
    intro s1 s2 s3 s4 s5
    have hlock : rlLocked (kvGet u s5.ratelimits) = true := by
      rw [st5.2.1]
      exact rlLocked_ge 5 (by omega)
    exact ⟨st1.2.1, st2.2.1, st3.2.1, st4.2.1, st5.2.1,
      login_locked u rp m6 t6 b6 s5 hlock⟩
  · intro s u p now tok b tk r h
    exact login_success_rl u p now tok b s tk r h

theorem login_rate_limit_spec_witness :
    rlLocked (some 5) = true ∧
    (let s0 := initStore 0 1 2 3
     let s1 := (login "vossi" "w" 0 "a" true s0).1
     let s2 := (login "vossi" "w" 0 "a" true s1).1
     let s3 := (login "vossi" "w" 0 "a" true s2).1
     let s4 := (login "vossi" "w" 0 "a" true s3).1
     let s5 := (login "vossi" "w" 0 "a" true s4).1
     kvGet "vossi" s5.ratelimits = some 5 ∧
     login "vossi" "password" 0 "a" true s5 =
       (s5, .err "Too many login attempts. Please try again in 15 minutes.")) ∧
    kvGet "vossi" (login "vossi" "password" 5 "t" true (initStore 0 1 2 3)).1.ratelimits =
      none := by
  refine ⟨?_, ?_, ?_⟩
  · exact (login_rate_limit_spec.1 (some 5)).mpr ⟨5, rfl, by omega⟩
  · have h := login_rate_limit_spec.2.1 (initStore 0 1 2 3) "vossi"
      ⟨"vossi", bcryptHash "password" 0, Role.admin, 2⟩ "w" "w" "w" "w" "w" "password"
      0 0 0 0 0 0 "a" "a" "a" "a" "a" "a" true true true true true true
      (by decide) (by decide) (by decide) (by decide) (by decide) (by decide)
      (by decide) (by decide)
    exact ⟨h.2.2.2.2.1, h.2.2.2.2.2⟩
  · exact login_rate_limit_spec.2.2 (initStore 0 1 2 3) "vossi" "password" 5 "t" true
      "t" Role.admin (by decide)

/-- C2: deleteUser refuses with LastAdminViolation and performs no mutation
whenever the target exists, has the admin role, and the admin count equals
one; and every store reachable from the initialized store by any sequence
of core requests keeps at least one admin-role user. -/
theorem last_admin_invariant_spec :
    (∀ (s : Store) (u : String) (u0 : UserRec),
      kvGet u s.users = some u0 → u0.role = Role.admin → adminCount s = 1 →
      deleteUser u s = (s, .err "Cannot delete the last admin user")) ∧
    (∀ (a b na nb : Nat) (ops : List Op),
      1 ≤ adminCount (runOps (initStore a b na nb) ops)) := by
  constructor
  · intro s u u0 hg hrole hcount
    have h1 : ((getAllUsers s).filter (fun v => v.role == Role.admin)).length = 1 :=
      hcount
    have hguard : (u0.role == Role.admin &&
        ((getAllUsers s).filter (fun v => v.role == Role.admin)).length == 1) = true := by
      simp [hrole, h1]
    simp [deleteUser, hg, hguard]
  · intro a b na nb ops
    have hinit : kvWf (initStore a b na nb).users ∧
        1 ≤ adminsIn (initStore a b na nb).users := by
      rw [initStore_users]
      constructor
      · simp only [kvWf, kvKeys]
        decide
      · simp [adminsIn]
    rw [adminCount_eq]
    exact (invC2_runOps (initStore a b na nb) ops hinit).2

theorem last_admin_invariant_spec_witness :
    deleteUser "vossi" (initStore 0 1 2 3) =
      (initStore 0 1 2 3, OpResult.err "Cannot delete the last admin user") ∧
    1 ≤ adminCount (runOps (initStore 0 1 2 3)
      [Op.deleteU "hannes", Op.deleteU "vossi"]) := by
  refine ⟨?_, ?_⟩
  · exact last_admin_invariant_spec.1 (initStore 0 1 2 3) "vossi"
      ⟨"vossi", bcryptHash "password" 0, Role.admin, 2⟩ (by decide) rfl (by decide)
  · exact last_admin_invariant_spec.2 0 1 2 3 [Op.deleteU "hannes", Op.deleteU "vossi"]

/-- C10: once the rate-limit counter of a username has reached the
threshold, no sequence of core requests ever changes or deletes it, and
login for that username always returns the TooManyAttempts error with the
store unchanged, before any credential check and whatever password, clock,
token or statistics outcome is supplied: the lockout is permanent at the
core level, even though the error string promises another try after 15
minutes. -/
theorem lockout_permanent_spec (s : Store) (u : String) (n : Nat) (ops : List Op)
    (h5 : 5 ≤ n) (h : kvGet u s.ratelimits = some n) :
    kvGet u (runOps s ops).ratelimits = some n ∧
    (∀ (p : String) (now : Nat) (tok : String) (b : Bool),
      login u p now tok b (runOps s ops) =
        (runOps s ops,
          .err "Too many login attempts. Please try again in 15 minutes.")) := by
  have hc := rl_runOps s ops u n h5 h
  refine ⟨hc, ?_⟩
  intro p now tok b
  apply login_locked
  rw [hc]
  exact rlLocked_ge n h5

theorem lockout_permanent_spec_witness :
    kvGet "vossi" (runOps lockedStore
      [Op.loginOp "vossi" "password" 0 "t" true,
       Op.createU "newbie" "abcd" Role.user 4 5,
       Op.logoutOp "t"]).ratelimits = some 5 ∧
    login "vossi" "password" 9 "t2" true (runOps lockedStore
      [Op.loginOp "vossi" "password" 0 "t" true,
       Op.createU "newbie" "abcd" Role.user 4 5,
       Op.logoutOp "t"]) =
      (runOps lockedStore
        [Op.loginOp "vossi" "password" 0 "t" true,
         Op.createU "newbie" "abcd" Role.user 4 5,
         Op.logoutOp "t"],
        .err "Too many login attempts. Please try again in 15 minutes.") := by
  have h := lockout_permanent_spec lockedStore "vossi" 5
    [Op.loginOp "vossi" "password" 0 "t" true,
     Op.createU "newbie" "abcd" Role.user 4 5,
     Op.logoutOp "t"] (by omega) (by decide)
  exact ⟨h.1, h.2 "password" 9 "t2" true⟩

/-- C7 counterexample: the hash function of the repository (hashPassword in
src/lib/auth.ts) takes only the password, appends the fixed salt
vossi-salt-2024 and applies the deterministic SHA-256 primitive, so two
calls on the same password always produce the same digest string; the claim
that they produce two different digests is false, shown here with the
identity function standing in for the primitive. -/
theorem hashPassword_deterministic_cex :
    ¬ (hashPassword (fun x => x) "samePassword" ≠
        hashPassword (fun x => x) "samePassword") ∧
    hashPassword (fun x => x) "samePassword" = "samePasswordvossi-salt-2024" := by
  constructor
  · exact fun h => h rfl
  · rfl

/-- C7 (amended): for any injective stand-in for the SHA-256 primitive,
hashPassword is deterministic (two calls on the same password give the SAME
digest, not different ones); the digest verifies true against the hashed
password under the digest comparison of validateCredentials, and false
against any other password. -/
theorem hashPassword_fixed_salt_spec (sha : String → String)
    (hinj : Function.Injective sha) (p q : String) :
    hashPassword sha p = hashPassword sha p ∧
    verifyPassword sha p (hashPassword sha p) = true ∧
    (q ≠ p → verifyPassword sha q (hashPassword sha p) = false) := by
  refine ⟨rfl, ?_, ?_⟩
  · simp [verifyPassword]
  · intro hne
    simp only [verifyPassword]
    rw [beq_eq_false_iff_ne]
    intro heq
    have h2 : q ++ clientSalt = p ++ clientSalt := hinj heq
    exact hne (string_append_cancel q p clientSalt h2)

theorem hashPassword_fixed_salt_spec_witness :
    verifyPassword (fun x => x) "samePassword"
      (hashPassword (fun x => x) "samePassword") = true ∧
    verifyPassword (fun x => x) "otherPassword"
      (hashPassword (fun x => x) "samePassword") = false := by
  have h := hashPassword_fixed_salt_spec (fun x => x) (fun _ _ hab => hab)
    "samePassword" "otherPassword"
  exact ⟨h.2.1, h.2.2 (by decide)⟩

end Claims

end LandingPage
